import Mathlib

/-!
# cppSudoku: board state and rule engine

A shallow embedding of `src/include/SudokuBoard.hpp` and
`src/include/GameLogic.hpp`.

* A `std::vector<std::vector<int>>` is a `List (List Int)`; nothing in the
  source forces the grid to be 9x9, so the shape is a hypothesis (`is9x9`)
  of the theorems that need it, not part of the type.
* A C++ `int` is an `Int`. The only arithmetic the modelled code performs is
  `(row / 3) * 3`, `boxStart + 3` and `++i` on small loop counters; none of
  it can leave the 32-bit range unless `row` or `col` is within 3 of
  `INT_MAX`, and `isValidMove` reaches `boxStart + 3` only after `getCell`
  has read the cell `(row, col)` as `0`, that is, only for a cell that
  exists in the grid.
* The member functions that mutate the board return the new board next to
  their C++ return value.
-/

set_option autoImplicit false

namespace Sudoku

/-! ## SudokuBoard.hpp -/

/-- The constant `BOARD_SIZE` of `SudokuBoard.hpp`, line 9. -/
def BOARD_SIZE : Nat := 9

/-- The constant `EMPTY_CELL` of `SudokuBoard.hpp`, line 10. -/
def EMPTY_CELL : Int := 0

/-- The two private members of `class SudokuBoard`. -/
structure SudokuBoard where
  currentBoard : List (List Int)
  initialBoard : List (List Int)
deriving DecidableEq

/-- Bounds-checked access `v.at(i)` with an `int` index. `none` stands for the
thrown `std::out_of_range`. The `int` is converted to the unsigned
`size_type`, which sends a negative index to a value of at least
`2^64 - 2^31`, larger than the size of any vector, so a negative index always
throws. -/
def vecAt {α : Type} (v : List α) (i : Int) : Option α :=
  if i < 0 then none else v[i.toNat]?

/-- Unchecked access `v[i]` with an `int` index. `none` stands for the
undefined behaviour of reading outside the vector. -/
def vecIndex {α : Type} (v : List α) (i : Int) : Option α :=
  if i < 0 then none else v[i.toNat]?

/-- The constructor `SudokuBoard(const std::vector<std::vector<int>>&)`:
the puzzle is copied into both grids. -/
def SudokuBoard.construct (puzzle : List (List Int)) : SudokuBoard :=
  ⟨puzzle, puzzle⟩

/-- The member `SudokuBoard::setCell`. The value guard comes first; then
`currentBoard.at(row).at(col) = value` either throws before anything is
written (caught, `false`) or overwrites exactly that element (`true`). -/
def setCell (b : SudokuBoard) (row col value : Int) : Bool × SudokuBoard :=
  if value < 1 ∨ value > 9 then (false, b)
  else
    match vecAt b.currentBoard row with
    | none => (false, b)
    | some r =>
      match vecAt r col with
      | none => (false, b)
      | some _ =>
        (true, ⟨b.currentBoard.set row.toNat (r.set col.toNat value), b.initialBoard⟩)

/-- The member `SudokuBoard::getCell`: `currentBoard.at(row).at(col)`, and
`-1` when either `at` throws. -/
def getCell (b : SudokuBoard) (row col : Int) : Int :=
  match vecAt b.currentBoard row with
  | none => -1
  | some r =>
    match vecAt r col with
    | none => -1
    | some x => x

/-- The member `SudokuBoard::isInitialCell`:
`currentBoard[row][col] == initialBoard[row][col]` with unchecked indexing;
`none` when one of the four reads is outside its vector. -/
def isInitialCell (b : SudokuBoard) (row col : Int) : Option Bool :=
  match vecIndex b.currentBoard row with
  | none => none
  | some cr =>
    match vecIndex cr col with
    | none => none
    | some c =>
      match vecIndex b.initialBoard row with
      | none => none
      | some ir =>
        match vecIndex ir col with
        | none => none
        | some i => some (c == i)

/-- The member `SudokuBoard::resetBoard`: `currentBoard = initialBoard`. -/
def resetBoard (b : SudokuBoard) : SudokuBoard :=
  ⟨b.initialBoard, b.initialBoard⟩

/-! ## GameLogic.hpp

`GameLogic` holds nothing but a reference to one `SudokuBoard`, so its member
functions take that board as their first argument. -/

/-- The loop `for (int i = lo; i < lo + n; ++i) if (p(i)) return ...;`:
whether some iteration takes the early return. The counter runs through
`lo, lo + 1, ..., lo + n - 1` in this order. -/
def loopHits (p : Int → Bool) : Int → Nat → Bool
  | _, 0 => false
  | lo, n + 1 => if p lo then true else loopHits p (lo + 1) n

/-- The member `GameLogic::rejectMove`: calls `board.setCell(row, col,
EMPTY_CELL)`, drops its result and returns `false`. -/
def rejectMove (b : SudokuBoard) (row col : Int) : Bool × SudokuBoard :=
  (false, (setCell b row col EMPTY_CELL).2)

/-- The member `GameLogic::isValueValid`. -/
def isValueValid (value : Int) : Bool :=
  decide (value ≥ 1 ∧ value ≤ 9)

/-- The member `GameLogic::isValidMove`: the value check, the occupied-cell
check, then the row loop, the column loop and the nested box loop, each
returning `false` at its first hit. `/` on `int` truncates toward zero. -/
def isValidMove (b : SudokuBoard) (row col value : Int) : Bool :=
  if !isValueValid value then false
  else if getCell b row col != EMPTY_CELL then false
  else if loopHits (fun j => getCell b row j == value) 0 BOARD_SIZE then false
  else if loopHits (fun i => getCell b i col == value) 0 BOARD_SIZE then false
  else
    let boxStartRow := (Int.tdiv row 3) * 3
    let boxStartCol := (Int.tdiv col 3) * 3
    if loopHits (fun i => loopHits (fun j => getCell b i j == value) boxStartCol 3)
        boxStartRow 3 then false
    else true

/-- The member `GameLogic::isSolved`: the nested loop returns `false` at the
first cell whose `getCell` is `EMPTY_CELL`, and `true` when there is none. -/
def isSolved (b : SudokuBoard) : Bool :=
  if loopHits (fun i => loopHits (fun j => getCell b i j == EMPTY_CELL) 0 BOARD_SIZE)
      0 BOARD_SIZE then false
  else true

/-- The grid `completedBoard` of `GameLogic::getPredefinedPuzzle`. -/
def completedBoard : List (List Int) :=
  [[6, 3, 9, 5, 7, 4, 1, 8, 2],
   [5, 4, 1, 8, 2, 9, 3, 6, 7],
   [2, 8, 7, 1, 3, 6, 4, 9, 5],
   [9, 5, 8, 7, 6, 1, 2, 3, 4],
   [3, 1, 4, 2, 9, 8, 7, 5, 6],
   [7, 6, 2, 4, 5, 3, 9, 1, 8],
   [1, 9, 6, 3, 4, 2, 8, 7, 5],
   [4, 2, 5, 9, 8, 7, 6, 3, 1],
   [8, 7, 3, 6, 1, 5, 2, 4, 9]]

/-- The grid `testOnePieceMissing` of `GameLogic::getPredefinedPuzzle`. -/
def testOnePieceMissing : List (List Int) :=
  [[6, 3, 9, 5, 7, 4, 1, 8, 2],
   [0, 4, 1, 8, 2, 9, 3, 6, 7],
   [2, 8, 7, 1, 3, 6, 4, 9, 5],
   [9, 5, 8, 7, 6, 1, 2, 3, 4],
   [3, 1, 4, 2, 9, 8, 7, 5, 6],
   [7, 6, 2, 4, 5, 3, 9, 1, 8],
   [1, 9, 6, 3, 4, 2, 8, 7, 5],
   [4, 2, 5, 9, 8, 7, 6, 3, 1],
   [8, 7, 3, 6, 1, 5, 2, 4, 9]]

/-- The grid `testFivePiecesMissing` of `GameLogic::getPredefinedPuzzle`. -/
def testFivePiecesMissing : List (List Int) :=
  [[6, 3, 9, 5, 7, 4, 1, 8, 2],
   [0, 4, 1, 8, 2, 9, 3, 6, 7],
   [2, 8, 7, 1, 3, 6, 4, 9, 0],
   [9, 0, 8, 7, 6, 1, 2, 3, 4],
   [3, 1, 4, 2, 9, 8, 7, 5, 6],
   [7, 6, 2, 4, 0, 3, 9, 1, 8],
   [1, 9, 6, 3, 4, 2, 8, 7, 5],
   [4, 2, 5, 9, 8, 7, 6, 3, 1],
   [8, 7, 3, 6, 1, 0, 2, 4, 9]]

/-- The grid `playingModeBoard` of `GameLogic::getPredefinedPuzzle`. -/
def playingModeBoard : List (List Int) :=
  [[6, 0, 9, 0, 7, 0, 1, 0, 2],
   [0, 4, 0, 8, 0, 9, 0, 6, 0],
   [2, 0, 7, 0, 3, 0, 4, 0, 5],
   [0, 5, 0, 7, 0, 1, 0, 3, 0],
   [3, 0, 4, 0, 9, 0, 7, 0, 6],
   [0, 6, 0, 4, 0, 3, 0, 1, 0],
   [5, 0, 6, 0, 4, 0, 8, 0, 9],
   [0, 2, 0, 9, 0, 7, 0, 3, 0],
   [8, 0, 3, 0, 1, 0, 2, 0, 4]]

/-- The static member `GameLogic::getPredefinedPuzzle`: the active `return`
is `testOnePieceMissing`; the other two are commented out. -/
def getPredefinedPuzzle : List (List Int) :=
  testOnePieceMissing

/-! ## Vocabulary of the specification -/

/-- A grid is 9x9: nine rows of nine cells each. -/
def is9x9 (g : List (List Int)) : Prop :=
  g.length = 9 ∧ ∀ r ∈ g, r.length = 9

instance (g : List (List Int)) : Decidable (is9x9 g) := by
  unfold is9x9; infer_instance

/-- A coordinate lies in `[0, 9)`. -/
def inBounds (i : Int) : Prop :=
  0 ≤ i ∧ i < 9

instance (i : Int) : Decidable (inBounds i) := by
  unfold inBounds; infer_instance

/-- The cell of a grid at natural-number coordinates, when it exists. -/
def gridCell (g : List (List Int)) (i j : Nat) : Option Int :=
  match g[i]? with
  | none => none
  | some r => r[j]?

/-- One call `setCell(row, col, value)`, as its three arguments. -/
structure SetCellCall where
  row : Int
  col : Int
  value : Int
deriving DecidableEq

/-- The board after a sequence of `setCell` calls, the return values
dropped. -/
def runSetCells (b : SudokuBoard) : List SetCellCall → SudokuBoard
  | [] => b
  | c :: cs => runSetCells (setCell b c.row c.col c.value).2 cs

/-- Whether every move of a sequence is accepted by the driver loop of
`main.cpp` (lines 93-97): each `(row, col, value)` is written with `setCell`
only after `isValidMove` returned `true` on the board reached so far. -/
def allAccepted : SudokuBoard → List SetCellCall → Bool
  | _, [] => true
  | b, m :: ms =>
    isValidMove b m.row m.col m.value && allAccepted (setCell b m.row m.col m.value).2 ms

/-- One call that changes, or tries to change, the board. -/
inductive BoardOp where
  | callSetCell (row col value : Int)
  | callRejectMove (row col : Int)
  | callResetBoard
deriving DecidableEq

/-- The board after one call, the return value dropped. -/
def applyOp (b : SudokuBoard) : BoardOp → SudokuBoard
  | BoardOp.callSetCell row col value => (setCell b row col value).2
  | BoardOp.callRejectMove row col => (rejectMove b row col).2
  | BoardOp.callResetBoard => resetBoard b

/-- The board after a sequence of calls. -/
def runOps (b : SudokuBoard) : List BoardOp → SudokuBoard
  | [] => b
  | op :: ops => runOps (applyOp b op) ops

/-- A grid is well formed: 9x9 with every entry in `{0..9}`. -/
def wellFormed (g : List (List Int)) : Prop :=
  is9x9 g ∧ ∀ r ∈ g, ∀ x ∈ r, 0 ≤ x ∧ x ≤ 9

instance (g : List (List Int)) : Decidable (wellFormed g) := by
  unfold wellFormed; infer_instance

/-- The number of cells of a grid that hold the empty sentinel `0`. -/
def emptyCount (g : List (List Int)) : Nat :=
  (g.map (fun r => r.count 0)).sum

/-- Two cells lie in a common row, a common column or a common 3x3 box. -/
def sameUnit (i₁ j₁ i₂ j₂ : Nat) : Prop :=
  i₁ = i₂ ∨ j₁ = j₂ ∨ (i₁ / 3 = i₂ / 3 ∧ j₁ / 3 = j₂ / 3)

instance (i₁ j₁ i₂ j₂ : Nat) : Decidable (sameUnit i₁ j₁ i₂ j₂) := by
  unfold sameUnit; infer_instance

/-- No non-zero value occurs twice in a row, a column or a 3x3 box: two
different cells of a common unit never hold the same non-zero value. -/
def ruleConsistent (g : List (List Int)) : Prop :=
  ∀ i₁ j₁ i₂ j₂ x, x ≠ 0 → (i₁ ≠ i₂ ∨ j₁ ≠ j₂) → sameUnit i₁ j₁ i₂ j₂ →
    gridCell g i₁ j₁ = some x → gridCell g i₂ j₂ ≠ some x

/-- An executable check of `ruleConsistent` for 9x9 grids: it runs through
all pairs of cells with coordinates below 9. -/
def rulesHold (g : List (List Int)) : Bool :=
  (List.range 9).all fun i₁ => (List.range 9).all fun j₁ =>
    (List.range 9).all fun i₂ => (List.range 9).all fun j₂ =>
      decide ((i₁ ≠ i₂ ∨ j₁ ≠ j₂) → sameUnit i₁ j₁ i₂ j₂ →
        gridCell g i₁ j₁ = some 0 ∨ gridCell g i₁ j₁ ≠ gridCell g i₂ j₂)

/-- The grid `playingModeBoard` with the cell `(7, 7)` blanked. In the source
grid column 7 holds `3` both at row 3 and at row 7; with the second of them
removed no non-zero value occurs twice in a row, a column or a box. -/
def playingModeFixed : List (List Int) :=
  [[6, 0, 9, 0, 7, 0, 1, 0, 2],
   [0, 4, 0, 8, 0, 9, 0, 6, 0],
   [2, 0, 7, 0, 3, 0, 4, 0, 5],
   [0, 5, 0, 7, 0, 1, 0, 3, 0],
   [3, 0, 4, 0, 9, 0, 7, 0, 6],
   [0, 6, 0, 4, 0, 3, 0, 1, 0],
   [5, 0, 6, 0, 4, 0, 8, 0, 9],
   [0, 2, 0, 9, 0, 7, 0, 0, 0],
   [8, 0, 3, 0, 1, 0, 2, 0, 4]]

/-! ## Auxiliary lemmas -/

theorem vecAt_natCast {α : Type} (v : List α) (n : Nat) : vecAt v (n : Int) = v[n]? := by
  simp [vecAt]

theorem vecAt_neg {α : Type} (v : List α) (i : Int) (h : i < 0) : vecAt v i = none := by
  simp [vecAt, h]

theorem getCell_natCast (b : SudokuBoard) (i j : Nat) :
    getCell b (i : Int) (j : Int) = (gridCell b.currentBoard i j).getD (-1) := by
  unfold getCell gridCell
  rw [vecAt_natCast]
  cases h : b.currentBoard[i]? with
  | none => rfl
  | some r =>
    simp only [vecAt_natCast]
    cases h2 : r[j]? <;> rfl

theorem getCell_eq_iff (b : SudokuBoard) (i j : Nat) (x : Int) (hx : x ≠ -1) :
    getCell b (i : Int) (j : Int) = x ↔ gridCell b.currentBoard i j = some x := by
  rw [getCell_natCast]
  cases h : gridCell b.currentBoard i j with
  | none =>
    simp only [Option.getD_none]
    constructor
    · intro e; exact absurd e.symm hx
    · intro e; exact Option.noConfusion e
  | some y => simp

/-- The loop `loopHits` started at a natural number takes its early return
exactly when the body holds at one of the `n` counters from `lo` on. -/
theorem loopHits_iff (p : Int → Bool) (n : Nat) : ∀ lo : Nat,
    (loopHits p (lo : Int) n = true ↔
      ∃ m : Nat, lo ≤ m ∧ m < lo + n ∧ p (m : Int) = true) := by
  induction n with
  | zero => intro lo; simp [loopHits]; intro m h1 h2; omega
  | succ n ih =>
    intro lo
    have h := ih (lo + 1)
    simp only [loopHits]
    push_cast at h
    cases hp : p (lo : Int) with
    | true =>
      simp only [if_true, true_iff]
      exact ⟨lo, le_refl _, by omega, hp⟩
    | false =>
      have e : (if false = true then true else loopHits p ((lo : Int) + 1) n)
          = loopHits p ((lo : Int) + 1) n := by simp
      rw [e, h]
      constructor
      · rintro ⟨m, h1, h2, h3⟩
        exact ⟨m, by omega, by omega, h3⟩
      · rintro ⟨m, h1, h2, h3⟩
        have : m ≠ lo := by
          rintro rfl
          rw [hp] at h3
          exact Bool.noConfusion h3
        exact ⟨m, by omega, by omega, h3⟩

theorem tdiv_three_natCast (n : Nat) :
    Int.tdiv (n : Int) 3 * 3 = ((n / 3 * 3 : Nat) : Int) := by
  push_cast
  simp [Int.tdiv_eq_ediv]

theorem inBounds_natCast (i : Int) (h : inBounds i) : ∃ n : Nat, n < 9 ∧ i = (n : Int) := by
  obtain ⟨h0, h9⟩ := h
  exact ⟨i.toNat, by omega, by omega⟩

theorem is9x9_row (g : List (List Int)) (hg : is9x9 g) (i : Nat) (hi : i < 9) :
    ∃ r, g[i]? = some r ∧ r.length = 9 := by
  have hlen : i < g.length := by rw [hg.1]; exact hi
  exact ⟨g[i], List.getElem?_eq_getElem hlen, hg.2 _ (List.getElem_mem hlen)⟩

theorem is9x9_gridCell (g : List (List Int)) (hg : is9x9 g) (i j : Nat)
    (hi : i < 9) (hj : j < 9) : ∃ x, gridCell g i j = some x := by
  obtain ⟨r, hr, hlen⟩ := is9x9_row g hg i hi
  have hjr : j < r.length := by rw [hlen]; exact hj
  exact ⟨r[j], by simp only [gridCell, hr]; exact List.getElem?_eq_getElem hjr⟩

/-- On a 9x9 grid only the coordinates below 9 name a cell. -/
theorem is9x9_gridCell_lt (g : List (List Int)) (hg : is9x9 g) (i j : Nat) (x : Int)
    (h : gridCell g i j = some x) : i < 9 ∧ j < 9 := by
  unfold gridCell at h
  cases hrow : g[i]? with
  | none => rw [hrow] at h; exact Option.noConfusion h
  | some r =>
    simp only [hrow] at h
    obtain ⟨hi, _⟩ := List.getElem?_eq_some.mp hrow
    obtain ⟨hj, _⟩ := List.getElem?_eq_some.mp h
    rw [hg.1] at hi
    rw [hg.2 r (List.getElem?_mem hrow)] at hj
    exact ⟨hi, hj⟩

/-! ## Move validation -/

/-- What `isValidMove` computes at natural-number coordinates of a 9x9
board, read off the grid: the two guards and the three loops. -/
theorem isValidMove_true_iff (b : SudokuBoard) (row col : Nat) (value : Int)
    (hb : is9x9 b.currentBoard) :
    isValidMove b (row : Int) (col : Int) value = true ↔
      (1 ≤ value ∧ value ≤ 9) ∧
      gridCell b.currentBoard row col = some 0 ∧
      (∀ j, gridCell b.currentBoard row j ≠ some value) ∧
      (∀ i, gridCell b.currentBoard i col ≠ some value) ∧
      (∀ i j, row / 3 * 3 ≤ i → i < row / 3 * 3 + 3 →
        col / 3 * 3 ≤ j → j < col / 3 * 3 + 3 →
        gridCell b.currentBoard i j ≠ some value) := by
  have hrowloop := loopHits_iff (fun j => getCell b (row : Int) j == value) BOARD_SIZE 0
  have hcolloop := loopHits_iff (fun i => getCell b i (col : Int) == value) BOARD_SIZE 0
  have hboxloop := loopHits_iff
    (fun i => loopHits (fun j => getCell b i j == value) ((col / 3 * 3 : Nat) : Int) 3)
    3 (row / 3 * 3)
  have hinner : ∀ i : Int,
      (loopHits (fun j => getCell b i j == value) ((col / 3 * 3 : Nat) : Int) 3 = true ↔
        ∃ m : Nat, col / 3 * 3 ≤ m ∧ m < col / 3 * 3 + 3 ∧
          (getCell b i (m : Int) == value) = true) :=
    fun i => loopHits_iff (fun j => getCell b i j == value) 3 (col / 3 * 3)
  unfold isValidMove
  simp only [tdiv_three_natCast]
  by_cases hv : 1 ≤ value ∧ value ≤ 9
  · have hv1 : value ≠ -1 := by omega
    have hvv : isValueValid value = true := by
      simp only [isValueValid, ge_iff_le, decide_eq_true_eq]; exact hv
    have hA : (getCell b (row : Int) (col : Int) != EMPTY_CELL) = true ↔
        ¬ gridCell b.currentBoard row col = some 0 := by
      rw [← getCell_eq_iff b row col 0 (by decide)]; simp [EMPTY_CELL]
    have hB : loopHits (fun j => getCell b (row : Int) j == value) 0 BOARD_SIZE = true ↔
        ∃ j, j < 9 ∧ gridCell b.currentBoard row j = some value := by
      simp only [Nat.cast_zero, beq_iff_eq, getCell_eq_iff b row _ value hv1, BOARD_SIZE,
        Nat.zero_le, true_and, Nat.zero_add] at hrowloop
      exact hrowloop
    have hC : loopHits (fun i => getCell b i (col : Int) == value) 0 BOARD_SIZE = true ↔
        ∃ i, i < 9 ∧ gridCell b.currentBoard i col = some value := by
      simp only [Nat.cast_zero, beq_iff_eq, getCell_eq_iff b _ col value hv1, BOARD_SIZE,
        Nat.zero_le, true_and, Nat.zero_add] at hcolloop
      exact hcolloop
    have hD : loopHits (fun i => loopHits (fun j => getCell b i j == value)
          ((col / 3 * 3 : Nat) : Int) 3) ((row / 3 * 3 : Nat) : Int) 3 = true ↔
        ∃ i, row / 3 * 3 ≤ i ∧ i < row / 3 * 3 + 3 ∧
          ∃ j, col / 3 * 3 ≤ j ∧ j < col / 3 * 3 + 3 ∧
            gridCell b.currentBoard i j = some value := by
      simp only [hinner, beq_iff_eq, getCell_eq_iff b _ _ value hv1] at hboxloop
      exact hboxloop
    simp only [hvv, Bool.not_true, Bool.false_eq_true, if_false]
    split_ifs with h1 h2 h3 h4
    · have := hA.mp h1
      constructor
      · intro e; exact e.elim
      · rintro ⟨_, h0, _⟩; exact absurd h0 this
    · obtain ⟨j, hj, hj2⟩ := hB.mp h2
      constructor
      · intro e; exact e.elim
      · rintro ⟨_, _, hrow, _⟩; exact absurd hj2 (hrow j)
    · obtain ⟨i, hi, hi2⟩ := hC.mp h3
      constructor
      · intro e; exact e.elim
      · rintro ⟨_, _, _, hcol, _⟩; exact absurd hi2 (hcol i)
    · obtain ⟨i, hi1, hi2, j, hj1, hj2, hij⟩ := hD.mp h4
      constructor
      · intro e; exact e.elim
      · rintro ⟨_, _, _, _, hbox⟩; exact absurd hij (hbox i j hi1 hi2 hj1 hj2)
    · refine ⟨fun _ => ⟨hv, ?_, ?_, ?_, ?_⟩, fun _ => rfl⟩
      · exact not_not.mp (fun h => h1 (hA.mpr h))
      · intro j e
        exact h2 (hB.mpr ⟨j, (is9x9_gridCell_lt b.currentBoard hb row j value e).2, e⟩)
      · intro i e
        exact h3 (hC.mpr ⟨i, (is9x9_gridCell_lt b.currentBoard hb i col value e).1, e⟩)
      · intro i j hi1 hi2 hj1 hj2 e
        exact h4 (hD.mpr ⟨i, hi1, hi2, j, hj1, hj2, e⟩)
  · have : isValueValid value = false := by
      simp only [isValueValid, ge_iff_le, decide_eq_false_iff_not]; exact hv
    simp [this, hv]

/-- C1: on a 9x9 board, for an in-bounds cell `(row, col)` and any integer
`value`, `isValidMove(row, col, value)` returns `true` exactly when
`1 <= value <= 9`, the cell `(row, col)` holds `0`, and `value` is in no
cell of row `row`, no cell of column `col` and no cell of the 3x3 box whose
top-left corner is `((row/3)*3, (col/3)*3)`. -/
theorem isValidMove_iff (b : SudokuBoard) (row col : Nat) (value : Int)
    (hb : is9x9 b.currentBoard) (hr : row < 9) (hc : col < 9) :
    isValidMove b (row : Int) (col : Int) value = true ↔
      (1 ≤ value ∧ value ≤ 9) ∧
      gridCell b.currentBoard row col = some 0 ∧
      (∀ j, gridCell b.currentBoard row j ≠ some value) ∧
      (∀ i, gridCell b.currentBoard i col ≠ some value) ∧
      (∀ i j, row / 3 * 3 ≤ i → i < row / 3 * 3 + 3 →
        col / 3 * 3 ≤ j → j < col / 3 * 3 + 3 →
        gridCell b.currentBoard i j ≠ some value) :=
  isValidMove_true_iff b row col value hb

theorem isValidMove_iff_witness :
    is9x9 (SudokuBoard.construct testFivePiecesMissing).currentBoard ∧
    (1 : Nat) < 9 ∧ (0 : Nat) < 9 ∧
    isValidMove (SudokuBoard.construct testFivePiecesMissing)
      ((1 : Nat) : Int) ((0 : Nat) : Int) 5 = true ∧
    (∀ j, gridCell (SudokuBoard.construct testFivePiecesMissing).currentBoard 1 j ≠ some 5) :=
  ⟨by decide, by decide, by decide, by decide,
    ((isValidMove_iff (SudokuBoard.construct testFivePiecesMissing) 1 0 5
      (by decide) (by decide) (by decide)).mp (by decide)).2.2.1⟩

/-- C2: on every board, for a cell `(row, col)` that exists and holds a value
`x` other than `0`, `isValidMove(row, col, value)` returns `false` for every
integer `value`. -/
theorem isValidMove_occupied (b : SudokuBoard) (row col : Nat) (x value : Int)
    (hcell : gridCell b.currentBoard row col = some x) (hx : x ≠ 0) :
    isValidMove b (row : Int) (col : Int) value = false := by
  have hget : getCell b (row : Int) (col : Int) = x := by
    rw [getCell_natCast, hcell]; rfl
  unfold isValidMove
  cases isValueValid value with
  | false => rfl
  | true => simp [hget, EMPTY_CELL, hx]

theorem isValidMove_occupied_witness :
    gridCell (SudokuBoard.construct testOnePieceMissing).currentBoard 0 0 = some 6 ∧
    (6 : Int) ≠ 0 ∧
    isValidMove (SudokuBoard.construct testOnePieceMissing)
      ((0 : Nat) : Int) ((0 : Nat) : Int) 5 = false :=
  ⟨by decide, by decide,
    isValidMove_occupied (SudokuBoard.construct testOnePieceMissing) 0 0 6 5
      (by decide) (by decide)⟩

/-! ## Cell writes and reads -/

/-- What `setCell` does at natural-number coordinates of an existing cell. -/
theorem setCell_natCast (b : SudokuBoard) (i j : Nat) (v : Int) (r : List Int)
    (hv : 1 ≤ v ∧ v ≤ 9) (hr : b.currentBoard[i]? = some r) (hj : j < r.length) :
    setCell b (i : Int) (j : Int) v
      = (true, ⟨b.currentBoard.set i (r.set j v), b.initialBoard⟩) := by
  have hnv : ¬ (v < 1 ∨ v > 9) := by omega
  unfold setCell
  rw [if_neg hnv]
  simp only [vecAt_natCast, hr, List.getElem?_eq_getElem hj, Int.toNat_ofNat]

/-- C3: on a 9x9 board, for an in-bounds cell `(r, c)` and a value `v` with
`1 <= v <= 9`, `setCell(r, c, v)` returns `true` and `getCell(r, c)` on the
resulting board is `v`. -/
theorem setCell_then_getCell (b : SudokuBoard) (r c v : Int)
    (hb : is9x9 b.currentBoard) (hr : inBounds r) (hc : inBounds c)
    (hv : 1 ≤ v ∧ v ≤ 9) :
    (setCell b r c v).1 = true ∧ getCell (setCell b r c v).2 r c = v := by
  obtain ⟨i, hi, rfl⟩ := inBounds_natCast r hr
  obtain ⟨j, hj, rfl⟩ := inBounds_natCast c hc
  obtain ⟨row, hrow, hlen⟩ := is9x9_row b.currentBoard hb i hi
  have hjr : j < row.length := by rw [hlen]; exact hj
  have hil : i < b.currentBoard.length := by rw [hb.1]; exact hi
  rw [setCell_natCast b i j v row hv hrow hjr]
  refine ⟨rfl, ?_⟩
  rw [getCell_natCast]
  simp [gridCell, List.getElem?_set, hil, hjr]

theorem setCell_then_getCell_witness :
    is9x9 (SudokuBoard.construct testOnePieceMissing).currentBoard ∧
    inBounds 1 ∧ inBounds 0 ∧ ((1 : Int) ≤ 5 ∧ (5 : Int) ≤ 9) ∧
    (setCell (SudokuBoard.construct testOnePieceMissing) 1 0 5).1 = true ∧
    getCell (setCell (SudokuBoard.construct testOnePieceMissing) 1 0 5).2 1 0 = 5 :=
  ⟨by decide, by decide, by decide, by decide,
    setCell_then_getCell (SudokuBoard.construct testOnePieceMissing) 1 0 5
      (by decide) (by decide) (by decide) (by decide)⟩

/-- C4: on every board, for every `(r, c)` and every integer `v` with `v < 1`
or `v > 9` (the empty sentinel `0` included), `setCell(r, c, v)` returns
`false` and leaves both the current and the initial grid as they were. -/
theorem setCell_bad_value (b : SudokuBoard) (r c v : Int) (hv : v < 1 ∨ v > 9) :
    setCell b r c v = (false, b) := by
  unfold setCell
  rw [if_pos hv]

theorem setCell_bad_value_witness :
    ((0 : Int) < 1 ∨ (0 : Int) > 9) ∧
    setCell (SudokuBoard.construct testOnePieceMissing) 1 0 0
      = (false, SudokuBoard.construct testOnePieceMissing) :=
  ⟨by decide, setCell_bad_value (SudokuBoard.construct testOnePieceMissing) 1 0 0 (by decide)⟩

theorem vecAt_eq_none {α : Type} (v : List α) (i : Int)
    (h : i < 0 ∨ (v.length : Int) ≤ i) : vecAt v i = none := by
  unfold vecAt
  by_cases hneg : i < 0
  · rw [if_pos hneg]
  · rw [if_neg hneg]
    apply List.getElem?_eq_none
    omega

theorem vecAt_eq_some_mem {α : Type} (v : List α) (i : Int) (x : α)
    (h : vecAt v i = some x) : x ∈ v := by
  unfold vecAt at h
  by_cases hneg : i < 0
  · rw [if_pos hneg] at h; exact Option.noConfusion h
  · rw [if_neg hneg] at h
    exact List.getElem?_mem h

/-- On a 9x9 grid a coordinate pair with one component outside `[0, 9)` makes
one of the two bounds-checked reads throw. -/
theorem vecAt_out_of_bounds (g : List (List Int)) (hg : is9x9 g) (r c : Int)
    (h : r < 0 ∨ r ≥ 9 ∨ c < 0 ∨ c ≥ 9) :
    vecAt g r = none ∨ ∃ row, vecAt g r = some row ∧ vecAt row c = none := by
  cases hrow : vecAt g r with
  | none => exact Or.inl rfl
  | some row =>
    refine Or.inr ⟨row, rfl, ?_⟩
    have hlen : row.length = 9 := hg.2 row (vecAt_eq_some_mem g r row hrow)
    have hr : ¬ (r < 0 ∨ (g.length : Int) ≤ r) := by
      intro hbad
      rw [vecAt_eq_none g r hbad] at hrow
      exact Option.noConfusion hrow
    rw [hg.1] at hr
    apply vecAt_eq_none
    rw [hlen]
    push_cast at hr ⊢
    omega

/-- C5: on a 9x9 board, for every coordinate pair `(r, c)` with `r < 0`,
`r >= 9`, `c < 0` or `c >= 9`, `getCell(r, c)` returns `-1` and, for every
integer `v`, `setCell(r, c, v)` returns `false` and leaves the board as it
was. Both are total functions in which the thrown `std::out_of_range` is
turned into the return value, so no exception leaves either of them. -/
theorem out_of_bounds_access (b : SudokuBoard) (r c : Int)
    (hb : is9x9 b.currentBoard) (h : r < 0 ∨ r ≥ 9 ∨ c < 0 ∨ c ≥ 9) :
    getCell b r c = -1 ∧ ∀ v : Int, setCell b r c v = (false, b) := by
  rcases vecAt_out_of_bounds b.currentBoard hb r c h with h1 | ⟨row, h1, h2⟩
  · refine ⟨by simp only [getCell, h1], fun v => ?_⟩
    unfold setCell
    split_ifs
    · rfl
    · simp only [h1]
  · refine ⟨by simp only [getCell, h1, h2], fun v => ?_⟩
    unfold setCell
    split_ifs
    · rfl
    · simp only [h1, h2]

theorem out_of_bounds_access_witness :
    is9x9 (SudokuBoard.construct testOnePieceMissing).currentBoard ∧
    ((-1 : Int) < 0 ∨ (-1 : Int) ≥ 9 ∨ (9 : Int) < 0 ∨ (9 : Int) ≥ 9) ∧
    getCell (SudokuBoard.construct testOnePieceMissing) (-1) 9 = -1 ∧
    ∀ v : Int, setCell (SudokuBoard.construct testOnePieceMissing) (-1) 9 v
      = (false, SudokuBoard.construct testOnePieceMissing) :=
  ⟨by decide, by decide,
    out_of_bounds_access (SudokuBoard.construct testOnePieceMissing) (-1) 9
      (by decide) (by decide)⟩

/-! ## Completion -/

/-- The two nested loops of `isSolved` find no empty cell exactly when no
cell with both coordinates below 9 holds `0`. -/
theorem isSolved_iff_gridCell (b : SudokuBoard) :
    isSolved b = true ↔
      ∀ i j, i < 9 → j < 9 → gridCell b.currentBoard i j ≠ some 0 := by
  have hinner : ∀ i : Int,
      (loopHits (fun j => getCell b i j == EMPTY_CELL) 0 BOARD_SIZE = true ↔
        ∃ m : Nat, 0 ≤ m ∧ m < 0 + BOARD_SIZE ∧ (getCell b i (m : Int) == EMPTY_CELL) = true) :=
    fun i => loopHits_iff (fun j => getCell b i j == EMPTY_CELL) BOARD_SIZE 0
  have houter := loopHits_iff
    (fun i => loopHits (fun j => getCell b i j == EMPTY_CELL) 0 BOARD_SIZE) BOARD_SIZE 0
  simp only [Nat.cast_zero, hinner] at houter
  simp only [beq_iff_eq, EMPTY_CELL, getCell_eq_iff b _ _ 0 (by decide), BOARD_SIZE,
    Nat.zero_le, true_and, Nat.zero_add] at houter
  unfold isSolved
  simp only [BOARD_SIZE, EMPTY_CELL]
  split_ifs with h
  · obtain ⟨i, hi, j, hj, hij⟩ := houter.mp h
    constructor
    · intro e; exact absurd e (by decide)
    · intro hall; exact absurd hij (hall i j hi hj)
  · refine ⟨fun _ => ?_, fun _ => rfl⟩
    intro i j hi hj e
    exact h (houter.mpr ⟨i, hi, j, hj, e⟩)

/-- On a 9x9 board `isSolved()` returns `true` exactly when no row of the
current grid has a member `0`. -/
theorem isSolved_iff_no_zero (b : SudokuBoard) (hb : is9x9 b.currentBoard) :
    isSolved b = true ↔ ∀ r ∈ b.currentBoard, ∀ x ∈ r, x ≠ 0 := by
  rw [isSolved_iff_gridCell]
  constructor
  · intro hall r hr x hx e
    obtain ⟨i, hi, hir⟩ := List.mem_iff_getElem.mp hr
    obtain ⟨j, hj, hjx⟩ := List.mem_iff_getElem.mp hx
    have hi9 : i < 9 := by rw [← hb.1]; exact hi
    have hj9 : j < 9 := by rw [← hb.2 r hr]; exact hj
    apply hall i j hi9 hj9
    simp only [gridCell, List.getElem?_eq_getElem hi, hir, List.getElem?_eq_getElem hj, hjx, e]
  · intro hall i j _ _ e
    unfold gridCell at e
    cases hrow : b.currentBoard[i]? with
    | none => rw [hrow] at e; exact Option.noConfusion e
    | some r =>
      rw [hrow] at e
      exact hall r (List.getElem?_mem hrow) 0 (List.getElem?_mem e) rfl

/-- C6: on a 9x9 board `isSolved()` returns `true` exactly when none of the
81 cells is `0`; the rules play no part: there is a full 9x9 board with the
same non-zero value twice in one column on which `isSolved()` returns
`true`. -/
theorem isSolved_iff_full (b : SudokuBoard) (hb : is9x9 b.currentBoard) :
    (isSolved b = true ↔ ∀ r ∈ b.currentBoard, ∀ x ∈ r, x ≠ 0) ∧
    (∃ full : SudokuBoard, is9x9 full.currentBoard ∧
      (∃ i₁ i₂ j x, i₁ ≠ i₂ ∧ x ≠ 0 ∧ gridCell full.currentBoard i₁ j = some x ∧
        gridCell full.currentBoard i₂ j = some x) ∧
      isSolved full = true) := by
  exact ⟨isSolved_iff_no_zero b hb, SudokuBoard.construct completedBoard, by decide,
    ⟨2, 6, 8, 5, by decide, by decide, by decide, by decide⟩, by decide⟩

theorem isSolved_iff_full_witness :
    is9x9 (SudokuBoard.construct testOnePieceMissing).currentBoard ∧
    isSolved (SudokuBoard.construct testOnePieceMissing) = false ∧
    ¬ (∀ r ∈ (SudokuBoard.construct testOnePieceMissing).currentBoard, ∀ x ∈ r, x ≠ 0) :=
  ⟨by decide, by decide, fun hall =>
    absurd ((isSolved_iff_full (SudokuBoard.construct testOnePieceMissing)
      (by decide)).1.mpr hall) (by decide)⟩

/-! ## Rejecting a move -/

/-- The write attempted by `rejectMove` passes `EMPTY_CELL`, which the value
guard of `setCell` turns down: the board comes back as it was. -/
theorem rejectMove_eq (b : SudokuBoard) (row col : Int) :
    rejectMove b row col = (false, b) := by
  unfold rejectMove setCell
  rw [if_pos (by decide)]

/-- C7, at an input where the code departs from it: on the board built from
`completedBoard`, `rejectMove(0, 0)` returns `false` and hands back the board
unchanged, so `getCell(0, 0)` is still `6`, not `0`. -/
theorem rejectMove_keeps_filled_cell :
    rejectMove (SudokuBoard.construct completedBoard) 0 0
      = (false, SudokuBoard.construct completedBoard) ∧
    getCell (rejectMove (SudokuBoard.construct completedBoard) 0 0).2 0 0 = 6 := by
  decide

/-! ## The initial grid -/

theorem setCell_initialBoard (b : SudokuBoard) (r c v : Int) :
    (setCell b r c v).2.initialBoard = b.initialBoard := by
  unfold setCell
  split_ifs
  · rfl
  · cases h1 : vecAt b.currentBoard r with
    | none => rfl
    | some row =>
      cases h2 : vecAt row c with
      | none => simp only [h2]
      | some _ => simp only [h2]

theorem runSetCells_initialBoard (calls : List SetCellCall) :
    ∀ b : SudokuBoard, (runSetCells b calls).initialBoard = b.initialBoard := by
  induction calls with
  | nil => intro b; rfl
  | cons call rest ih =>
    intro b
    simp only [runSetCells]
    rw [ih, setCell_initialBoard]

/-- C8: for every puzzle and every finite sequence of `setCell` calls on the
board built from it, whatever their arguments and results, `resetBoard()`
makes the current grid equal to the puzzle; the initial grid is still the
puzzle after the calls, and none of `setCell`, `rejectMove` and `resetBoard`
changes the initial grid of any board. -/
theorem resetBoard_roundtrip (puzzle : List (List Int)) (calls : List SetCellCall) :
    (resetBoard (runSetCells (SudokuBoard.construct puzzle) calls)).currentBoard = puzzle ∧
    (runSetCells (SudokuBoard.construct puzzle) calls).initialBoard = puzzle ∧
    (∀ (b : SudokuBoard) (r c v : Int), (setCell b r c v).2.initialBoard = b.initialBoard) ∧
    (∀ (b : SudokuBoard) (r c : Int), (rejectMove b r c).2.initialBoard = b.initialBoard) ∧
    (∀ b : SudokuBoard, (resetBoard b).initialBoard = b.initialBoard) := by
  refine ⟨?_, ?_, setCell_initialBoard, ?_, fun _ => rfl⟩
  · simp only [resetBoard, runSetCells_initialBoard, SudokuBoard.construct]
  · simp only [runSetCells_initialBoard, SudokuBoard.construct]
  · intro b r c
    rw [rejectMove_eq]

/-- C9, at inputs where the code departs from it: on the board built from
`testOnePieceMissing` with no `setCell` call made, the cell `(1, 0)` is empty
in the initial puzzle and `isInitialCell(1, 0)` returns `true`; after
`setCell(0, 0, 5)` the cell `(0, 0)`, a clue `6` of the initial puzzle, has
`isInitialCell(0, 0)` return `false`. -/
theorem isInitialCell_compares_values :
    (gridCell testOnePieceMissing 1 0 = some 0 ∧
      isInitialCell (runSetCells (SudokuBoard.construct testOnePieceMissing) []) 1 0
        = some true) ∧
    (gridCell testOnePieceMissing 0 0 = some 6 ∧
      isInitialCell (runSetCells (SudokuBoard.construct testOnePieceMissing) [⟨0, 0, 5⟩]) 0 0
        = some false) := by
  decide

theorem vecIndex_natCast {α : Type} (v : List α) (n : Nat) : vecIndex v (n : Int) = v[n]? := by
  simp [vecIndex]

/-- When both grids are the same, `isInitialCell` answers `true` at every
cell that exists. -/
theorem isInitialCell_same_grid (g : List (List Int)) (i j : Nat) (x : Int)
    (h : gridCell g i j = some x) :
    isInitialCell ⟨g, g⟩ (i : Int) (j : Int) = some true := by
  unfold gridCell at h
  unfold isInitialCell
  simp only [vecIndex_natCast]
  cases hrow : g[i]? with
  | none => rw [hrow] at h; exact Option.noConfusion h
  | some r =>
    simp only [hrow] at h
    simp only [vecIndex_natCast, h, beq_self_eq_true]

/-- C10: for every 9x9 puzzle and every sequence of `setCell` calls on the
board built from it, after `resetBoard()` the call `isInitialCell(r, c)`
returns `true` for every in-bounds cell `(r, c)` that is not empty in the
puzzle. -/
theorem isInitialCell_after_reset (puzzle : List (List Int)) (calls : List SetCellCall)
    (r c : Int) (hp : is9x9 puzzle) (hr : inBounds r) (hc : inBounds c)
    (hne : getCell (SudokuBoard.construct puzzle) r c ≠ 0) :
    isInitialCell (resetBoard (runSetCells (SudokuBoard.construct puzzle) calls)) r c
      = some true := by
  obtain ⟨i, hi, rfl⟩ := inBounds_natCast r hr
  obtain ⟨j, hj, rfl⟩ := inBounds_natCast c hc
  obtain ⟨x, hx⟩ := is9x9_gridCell puzzle hp i j hi hj
  have hreset : resetBoard (runSetCells (SudokuBoard.construct puzzle) calls)
      = ⟨puzzle, puzzle⟩ := by
    simp only [resetBoard, runSetCells_initialBoard, SudokuBoard.construct]
  rw [hreset]
  exact isInitialCell_same_grid puzzle i j x hx

theorem isInitialCell_after_reset_witness :
    is9x9 testOnePieceMissing ∧ inBounds 0 ∧ inBounds 0 ∧
    getCell (SudokuBoard.construct testOnePieceMissing) 0 0 ≠ 0 ∧
    isInitialCell (resetBoard (runSetCells (SudokuBoard.construct testOnePieceMissing)
      [⟨0, 0, 5⟩, ⟨1, 0, 5⟩, ⟨9, 9, 1⟩])) 0 0 = some true :=
  ⟨by decide, by decide, by decide, by decide,
    isInitialCell_after_reset testOnePieceMissing [⟨0, 0, 5⟩, ⟨1, 0, 5⟩, ⟨9, 9, 1⟩] 0 0
      (by decide) (by decide) (by decide) (by decide)⟩

/-! ## The predefined puzzles -/

/-- C11: `getPredefinedPuzzle()` returns a 9x9 grid whose only `0` is at row
1, column 0; on the board built from it `isSolved()` is `false`,
`setCell(1, 0, 5)` returns `true`, and `isSolved()` is `true` afterwards. -/
theorem scenario_one_cell_missing :
    getPredefinedPuzzle = testOnePieceMissing ∧
    is9x9 getPredefinedPuzzle ∧
    gridCell getPredefinedPuzzle 1 0 = some 0 ∧
    (∀ i j, gridCell getPredefinedPuzzle i j = some 0 → i = 1 ∧ j = 0) ∧
    isSolved (SudokuBoard.construct getPredefinedPuzzle) = false ∧
    (setCell (SudokuBoard.construct getPredefinedPuzzle) 1 0 5).1 = true ∧
    isSolved (setCell (SudokuBoard.construct getPredefinedPuzzle) 1 0 5).2 = true := by
  refine ⟨rfl, by decide, by decide, ?_, by decide, by decide, by decide⟩
  intro i j h
  obtain ⟨hi, hj⟩ := is9x9_gridCell_lt getPredefinedPuzzle (by decide) i j 0 h
  have hall : ∀ i' < 9, ∀ j' < 9,
      gridCell getPredefinedPuzzle i' j' = some 0 → i' = 1 ∧ j' = 0 := by decide
  exact hall i hi j hj h

/-- C12, at an input where the code departs from it: from the board built
from `getPredefinedPuzzle()` the move `(1, 0, 5)` passes `isValidMove` and is
written; `isSolved()` is then `true`, yet column 8 of that board holds `5`
both at row 2 and at row 6 and holds no `3`. -/
theorem validated_play_ends_on_invalid_board :
    allAccepted (SudokuBoard.construct getPredefinedPuzzle) [⟨1, 0, 5⟩] = true ∧
    isSolved (runSetCells (SudokuBoard.construct getPredefinedPuzzle) [⟨1, 0, 5⟩]) = true ∧
    gridCell (runSetCells (SudokuBoard.construct getPredefinedPuzzle)
      [⟨1, 0, 5⟩]).currentBoard 2 8 = some 5 ∧
    gridCell (runSetCells (SudokuBoard.construct getPredefinedPuzzle)
      [⟨1, 0, 5⟩]).currentBoard 6 8 = some 5 ∧
    (∀ i < 9, gridCell (runSetCells (SudokuBoard.construct getPredefinedPuzzle)
      [⟨1, 0, 5⟩]).currentBoard i 8 ≠ some 3) := by
  decide

/-- C15, at an input where the code departs from it: on the board built from
`testFivePiecesMissing`, `isValidMove(r, c, 5)` returns `true` at the blanks
`(1, 0)`, `(3, 1)`, `(5, 4)` and `(8, 5)` but `false` at the blank `(2, 8)`,
because column 8 already holds `5` at row 6. -/
theorem scenario_five_missing :
    isValidMove (SudokuBoard.construct testFivePiecesMissing) 1 0 5 = true ∧
    isValidMove (SudokuBoard.construct testFivePiecesMissing) 3 1 5 = true ∧
    isValidMove (SudokuBoard.construct testFivePiecesMissing) 5 4 5 = true ∧
    isValidMove (SudokuBoard.construct testFivePiecesMissing) 8 5 5 = true ∧
    gridCell testFivePiecesMissing 2 8 = some 0 ∧
    gridCell testFivePiecesMissing 6 8 = some 5 ∧
    isValidMove (SudokuBoard.construct testFivePiecesMissing) 2 8 5 = false := by
  decide

/-! ## Out-of-range coordinates in move validation -/

/-- A move that `isValidMove` accepts has a value in `1..9` and a target
cell that `getCell` reads as `0`. -/
theorem isValidMove_true_guards (b : SudokuBoard) (row col value : Int)
    (h : isValidMove b row col value = true) :
    (1 ≤ value ∧ value ≤ 9) ∧ getCell b row col = 0 := by
  unfold isValidMove at h
  cases hv : isValueValid value with
  | false => rw [hv] at h; simp at h
  | true =>
    have hrange : 1 ≤ value ∧ value ≤ 9 := by
      simpa only [isValueValid, ge_iff_le, decide_eq_true_eq] using hv
    refine ⟨hrange, ?_⟩
    by_contra hne
    have hguard : (getCell b row col != EMPTY_CELL) = true := by
      simpa only [EMPTY_CELL, bne_iff_ne, ne_eq] using hne
    rw [hv, hguard] at h
    simp at h

/-- On a 9x9 board `getCell` reads `-1` at every coordinate pair with a
component outside `[0, 9)`. -/
theorem getCell_out_of_bounds (b : SudokuBoard) (hb : is9x9 b.currentBoard) (r c : Int)
    (h : r < 0 ∨ r ≥ 9 ∨ c < 0 ∨ c ≥ 9) : getCell b r c = -1 := by
  rcases vecAt_out_of_bounds b.currentBoard hb r c h with h1 | ⟨row, h1, h2⟩
  · simp only [getCell, h1]
  · simp only [getCell, h1, h2]

/-- C14 as written does not hold: there are no 9x9 board, coordinate pair
outside the grid and value in `1..9` for which `isValidMove` returns
`true`. -/
theorem no_out_of_range_move_accepted :
    ¬ ∃ (b : SudokuBoard) (row col value : Int), is9x9 b.currentBoard ∧
      (row < 0 ∨ row ≥ 9 ∨ col < 0 ∨ col ≥ 9) ∧ (1 ≤ value ∧ value ≤ 9) ∧
      isValidMove b row col value = true := by
  rintro ⟨b, row, col, value, hb, hout, _, hvalid⟩
  have h0 := (isValidMove_true_guards b row col value hvalid).2
  rw [getCell_out_of_bounds b hb row col hout] at h0
  exact absurd h0 (by decide)

/-- C14, amended: on a 9x9 board `isValidMove(row, col, value)` returns
`false` for every coordinate pair with a component outside `[0, 9)` and every
value: `getCell` reads `-1` there, which is not `EMPTY_CELL`, so the
occupied-cell check turns the move down. -/
theorem isValidMove_out_of_range (b : SudokuBoard) (row col value : Int)
    (hb : is9x9 b.currentBoard) (hout : row < 0 ∨ row ≥ 9 ∨ col < 0 ∨ col ≥ 9) :
    isValidMove b row col value = false := by
  cases hvalid : isValidMove b row col value with
  | false => rfl
  | true =>
    have h0 := (isValidMove_true_guards b row col value hvalid).2
    rw [getCell_out_of_bounds b hb row col hout] at h0
    exact absurd h0 (by decide)

theorem isValidMove_out_of_range_witness :
    is9x9 (SudokuBoard.construct playingModeBoard).currentBoard ∧
    ((9 : Int) < 0 ∨ (9 : Int) ≥ 9 ∨ (-1 : Int) < 0 ∨ (-1 : Int) ≥ 9) ∧
    isValidMove (SudokuBoard.construct playingModeBoard) 9 (-1) 5 = false :=
  ⟨by decide, by decide,
    isValidMove_out_of_range (SudokuBoard.construct playingModeBoard) 9 (-1) 5
      (by decide) (by decide)⟩

/-! ## The effect of `setCell` on the grid -/

theorem vecAt_eq_some {α : Type} (v : List α) (i : Int) (x : α) (h : vecAt v i = some x) :
    ∃ n : Nat, i = (n : Int) ∧ v[n]? = some x := by
  unfold vecAt at h
  by_cases hneg : i < 0
  · rw [if_pos hneg] at h; exact Option.noConfusion h
  · rw [if_neg hneg] at h
    exact ⟨i.toNat, by omega, h⟩

/-- The two outcomes of `setCell`: nothing happens, or the addressed cell
exists, the value is in `1..9`, and exactly that cell is overwritten. -/
theorem setCell_cases (b : SudokuBoard) (r c v : Int) :
    setCell b r c v = (false, b) ∨
    ∃ (i j : Nat) (row : List Int), r = (i : Int) ∧ c = (j : Int) ∧ (1 ≤ v ∧ v ≤ 9) ∧
      b.currentBoard[i]? = some row ∧ j < row.length ∧
      setCell b r c v = (true, ⟨b.currentBoard.set i (row.set j v), b.initialBoard⟩) := by
  by_cases hv : v < 1 ∨ v > 9
  · left
    unfold setCell
    rw [if_pos hv]
  · cases h1 : vecAt b.currentBoard r with
    | none =>
      left
      unfold setCell
      rw [if_neg hv]
      simp only [h1]
    | some row =>
      cases h2 : vecAt row c with
      | none =>
        left
        unfold setCell
        rw [if_neg hv]
        simp only [h1, h2]
      | some x =>
        right
        obtain ⟨i, rfl, hi⟩ := vecAt_eq_some b.currentBoard r row h1
        obtain ⟨j, rfl, hj⟩ := vecAt_eq_some row c x h2
        obtain ⟨hjlt, _⟩ := List.getElem?_eq_some.mp hj
        exact ⟨i, j, row, rfl, rfl, by omega, hi, hjlt,
          setCell_natCast b i j v row (by omega) hi hjlt⟩

/-- Reading a grid in which one existing cell was overwritten. -/
theorem gridCell_set (g : List (List Int)) (i j : Nat) (row : List Int) (v : Int)
    (hrow : g[i]? = some row) (hj : j < row.length) (i' j' : Nat) :
    gridCell (g.set i (row.set j v)) i' j'
      = if i' = i ∧ j' = j then some v else gridCell g i' j' := by
  obtain ⟨hi, _⟩ := List.getElem?_eq_some.mp hrow
  unfold gridCell
  rw [List.getElem?_set]
  by_cases hii : i = i'
  · subst hii
    rw [if_pos rfl, if_pos hi, hrow]
    simp only [List.getElem?_set, true_and]
    by_cases hjj : j = j'
    · subst hjj
      rw [if_pos rfl, if_pos hj, if_pos rfl]
    · rw [if_neg hjj, if_neg (fun e => hjj e.symm)]
  · rw [if_neg hii, if_neg (fun e => hii e.1.symm)]

theorem getCell_neg (b : SudokuBoard) (r c : Int) (h : r < 0 ∨ c < 0) :
    getCell b r c = -1 := by
  unfold getCell
  cases h1 : vecAt b.currentBoard r with
  | none => rfl
  | some row =>
    rcases h with h | h
    · rw [vecAt_neg _ r h] at h1; exact Option.noConfusion h1
    · simp only [vecAt_neg row c h]

/-- Reading any cell after a `setCell` call: the written value at the
addressed cell when the call succeeded, the old content everywhere else. -/
theorem getCell_setCell (b : SudokuBoard) (r c v r' c' : Int) :
    getCell (setCell b r c v).2 r' c'
      = if (setCell b r c v).1 = true ∧ r' = r ∧ c' = c then v else getCell b r' c' := by
  rcases setCell_cases b r c v with h | ⟨i, j, row, rfl, rfl, _, hrow, hj, h⟩
  · rw [h]
    simp
  · rw [h]
    by_cases hneg : r' < 0 ∨ c' < 0
    · rw [getCell_neg _ r' c' hneg, getCell_neg _ r' c' hneg, if_neg]
      rintro ⟨_, h1, h2⟩
      omega
    · obtain ⟨i', rfl⟩ : ∃ n : Nat, r' = (n : Int) := ⟨r'.toNat, by omega⟩
      obtain ⟨j', rfl⟩ : ∃ n : Nat, c' = (n : Int) := ⟨c'.toNat, by omega⟩
      rw [getCell_natCast, getCell_natCast]
      simp only [gridCell_set b.currentBoard i j row v hrow hj, Nat.cast_inj, true_and]
      by_cases hsame : i' = i ∧ j' = j
      · rw [if_pos hsame, if_pos hsame]; rfl
      · rw [if_neg hsame, if_neg hsame]

theorem setCell_true_value (b : SudokuBoard) (r c v : Int)
    (h : (setCell b r c v).1 = true) : 1 ≤ v ∧ v ≤ 9 := by
  rcases setCell_cases b r c v with h1 | ⟨_, _, _, _, _, hv, _⟩
  · rw [h1] at h; exact Bool.noConfusion h
  · exact hv

/-- C17: on every board, of any shape, and for every `row`, `col` and
`value`, a move that `isValidMove` accepts is written by `setCell`: it
returns `true`. -/
theorem validated_move_applies (b : SudokuBoard) (row col value : Int)
    (h : isValidMove b row col value = true) : (setCell b row col value).1 = true := by
  obtain ⟨hv, h0⟩ := isValidMove_true_guards b row col value h
  have hnv : ¬ (value < 1 ∨ value > 9) := by omega
  unfold getCell at h0
  unfold setCell
  rw [if_neg hnv]
  cases h1 : vecAt b.currentBoard row with
  | none => rw [h1] at h0; simp at h0
  | some r =>
    simp only [h1] at h0
    cases h2 : vecAt r col with
    | none => rw [h2] at h0; simp at h0
    | some x => simp only [h2]

theorem validated_move_applies_witness :
    isValidMove (SudokuBoard.construct testFivePiecesMissing) 3 1 5 = true ∧
    (setCell (SudokuBoard.construct testFivePiecesMissing) 3 1 5).1 = true :=
  ⟨by decide,
    validated_move_applies (SudokuBoard.construct testFivePiecesMissing) 3 1 5 (by decide)⟩

/-- C19: on a 9x9 board, for every `(r, c)`, every value `v` and every
in-bounds cell `(r', c')` other than `(r, c)`, `getCell(r', c')` is the same
before and after `setCell(r, c, v)`, and the initial grid is unchanged. -/
theorem setCell_frame (b : SudokuBoard) (r c v r' c' : Int)
    (hb : is9x9 b.currentBoard) (hr : inBounds r') (hc : inBounds c')
    (hne : r' ≠ r ∨ c' ≠ c) :
    getCell (setCell b r c v).2 r' c' = getCell b r' c' ∧
    (setCell b r c v).2.initialBoard = b.initialBoard := by
  refine ⟨?_, setCell_initialBoard b r c v⟩
  rw [getCell_setCell, if_neg]
  rintro ⟨_, h1, h2⟩
  rcases hne with hne | hne
  · exact hne h1
  · exact hne h2

theorem setCell_frame_witness :
    is9x9 (SudokuBoard.construct testOnePieceMissing).currentBoard ∧
    inBounds 1 ∧ inBounds 1 ∧ ((1 : Int) ≠ 1 ∨ (1 : Int) ≠ 0) ∧
    getCell (setCell (SudokuBoard.construct testOnePieceMissing) 1 0 5).2 1 1
      = getCell (SudokuBoard.construct testOnePieceMissing) 1 1 ∧
    (setCell (SudokuBoard.construct testOnePieceMissing) 1 0 5).2.initialBoard
      = (SudokuBoard.construct testOnePieceMissing).initialBoard :=
  ⟨by decide, by decide, by decide, by decide,
    setCell_frame (SudokuBoard.construct testOnePieceMissing) 1 0 5 1 1
      (by decide) (by decide) (by decide) (by decide)⟩

/-! ## Invariants of the board operations -/

/-- Overwriting an existing cell of a well-formed grid with a value in
`{0..9}` leaves the grid well formed. -/
theorem wellFormed_set (g : List (List Int)) (i j : Nat) (row : List Int) (v : Int)
    (hg : wellFormed g) (hrow : g[i]? = some row) (hv : 0 ≤ v ∧ v ≤ 9) :
    wellFormed (g.set i (row.set j v)) := by
  obtain ⟨⟨hlen, hrows⟩, hvals⟩ := hg
  have hmem : row ∈ g := List.getElem?_mem hrow
  refine ⟨⟨by rw [List.length_set]; exact hlen, ?_⟩, ?_⟩
  · intro r hr
    rcases List.mem_or_eq_of_mem_set hr with h | h
    · exact hrows r h
    · rw [h, List.length_set]; exact hrows row hmem
  · intro r hr x hx
    rcases List.mem_or_eq_of_mem_set hr with h | h
    · exact hvals r h x hx
    · rw [h] at hx
      rcases List.mem_or_eq_of_mem_set hx with h2 | h2
      · exact hvals row hmem x h2
      · rw [h2]; exact hv

/-- Each of `setCell`, `rejectMove` and `resetBoard` keeps both grids well
formed. -/
theorem applyOp_wellFormed (b : SudokuBoard) (op : BoardOp)
    (hc : wellFormed b.currentBoard) (hi : wellFormed b.initialBoard) :
    wellFormed (applyOp b op).currentBoard ∧ wellFormed (applyOp b op).initialBoard := by
  cases op with
  | callSetCell r c v =>
    simp only [applyOp]
    rcases setCell_cases b r c v with h | ⟨i, j, row, _, _, hv, hrow, _, h⟩
    · rw [h]; exact ⟨hc, hi⟩
    · rw [h]
      exact ⟨wellFormed_set b.currentBoard i j row v hc hrow (by omega), hi⟩
  | callRejectMove r c =>
    simp only [applyOp, rejectMove_eq]
    exact ⟨hc, hi⟩
  | callResetBoard => exact ⟨hi, hi⟩

theorem runOps_wellFormed_from (ops : List BoardOp) : ∀ b : SudokuBoard,
    wellFormed b.currentBoard → wellFormed b.initialBoard →
    wellFormed (runOps b ops).currentBoard ∧ wellFormed (runOps b ops).initialBoard := by
  induction ops with
  | nil => intro b hc hi; exact ⟨hc, hi⟩
  | cons op rest ih =>
    intro b hc hi
    obtain ⟨hc2, hi2⟩ := applyOp_wellFormed b op hc hi
    exact ih (applyOp b op) hc2 hi2

/-- C16: when the board is built from a 9x9 puzzle whose entries all lie in
`{0..9}`, then after any finite sequence of `setCell`, `rejectMove` and
`resetBoard` calls with arbitrary arguments the current grid and the initial
grid are both 9x9 with every entry in `{0..9}`. -/
theorem wellFormed_invariant (puzzle : List (List Int)) (ops : List BoardOp)
    (hp : wellFormed puzzle) :
    wellFormed (runOps (SudokuBoard.construct puzzle) ops).currentBoard ∧
    wellFormed (runOps (SudokuBoard.construct puzzle) ops).initialBoard :=
  runOps_wellFormed_from ops (SudokuBoard.construct puzzle) hp hp

theorem wellFormed_invariant_witness :
    wellFormed playingModeBoard ∧
    wellFormed (runOps (SudokuBoard.construct playingModeBoard)
      [BoardOp.callSetCell 0 1 9, BoardOp.callSetCell 0 0 12, BoardOp.callRejectMove 0 0,
        BoardOp.callSetCell (-1) 20 3, BoardOp.callResetBoard,
        BoardOp.callSetCell 8 8 1]).currentBoard ∧
    wellFormed (runOps (SudokuBoard.construct playingModeBoard)
      [BoardOp.callSetCell 0 1 9, BoardOp.callSetCell 0 0 12, BoardOp.callRejectMove 0 0,
        BoardOp.callSetCell (-1) 20 3, BoardOp.callResetBoard,
        BoardOp.callSetCell 8 8 1]).initialBoard :=
  ⟨by decide, wellFormed_invariant playingModeBoard _ (by decide)⟩

/-- A cell that `getCell` reads as non-zero is still read as non-zero after a
`setCell` or a `rejectMove` call. -/
theorem applyOp_keeps_filled (b : SudokuBoard) (op : BoardOp) (r c : Int)
    (hop : op ≠ BoardOp.callResetBoard) (h : getCell b r c ≠ 0) :
    getCell (applyOp b op) r c ≠ 0 := by
  cases op with
  | callSetCell r' c' v =>
    simp only [applyOp]
    rw [getCell_setCell]
    split_ifs with hsame
    · have := setCell_true_value b r' c' v hsame.1
      omega
    · exact h
  | callRejectMove r' c' =>
    simp only [applyOp, rejectMove_eq]
    exact h
  | callResetBoard => exact absurd rfl hop

theorem runOps_keeps_filled (r c : Int) (ops : List BoardOp) : ∀ b : SudokuBoard,
    BoardOp.callResetBoard ∉ ops → getCell b r c ≠ 0 → getCell (runOps b ops) r c ≠ 0 := by
  induction ops with
  | nil => intro b _ h; exact h
  | cons op rest ih =>
    intro b hops h
    have hop : op ≠ BoardOp.callResetBoard := fun e => hops (by rw [e]; exact List.mem_cons_self _ _)
    have hrest : BoardOp.callResetBoard ∉ rest := fun hm => hops (List.mem_cons_of_mem _ hm)
    exact ih (applyOp b op) hrest (applyOp_keeps_filled b op r c hop h)

/-- C20: on a 9x9 board, an in-bounds cell `(r, c)` with `getCell(r, c) != 0`
still has `getCell(r, c) != 0` after every finite sequence of `setCell` and
`rejectMove` calls with arbitrary arguments. -/
theorem filled_cell_stays_filled (b : SudokuBoard) (r c : Int) (ops : List BoardOp)
    (hb : is9x9 b.currentBoard) (hr : inBounds r) (hc : inBounds c)
    (hfilled : getCell b r c ≠ 0) (hops : BoardOp.callResetBoard ∉ ops) :
    getCell (runOps b ops) r c ≠ 0 :=
  runOps_keeps_filled r c ops b hops hfilled

theorem filled_cell_stays_filled_witness :
    is9x9 (SudokuBoard.construct playingModeBoard).currentBoard ∧
    inBounds 0 ∧ inBounds 0 ∧
    getCell (SudokuBoard.construct playingModeBoard) 0 0 ≠ 0 ∧
    BoardOp.callResetBoard ∉
      [BoardOp.callRejectMove 0 0, BoardOp.callSetCell 0 0 0, BoardOp.callSetCell 0 0 7] ∧
    getCell (runOps (SudokuBoard.construct playingModeBoard)
      [BoardOp.callRejectMove 0 0, BoardOp.callSetCell 0 0 0, BoardOp.callSetCell 0 0 7]) 0 0
        ≠ 0 :=
  ⟨by decide, by decide, by decide, by decide, by decide,
    filled_cell_stays_filled (SudokuBoard.construct playingModeBoard) 0 0
      [BoardOp.callRejectMove 0 0, BoardOp.callSetCell 0 0 0, BoardOp.callSetCell 0 0 7]
      (by decide) (by decide) (by decide) (by decide) (by decide)⟩

/-! ## Validated moves keep the rules -/

/-- On a 9x9 grid a successful run of the check `rulesHold` gives
`ruleConsistent`. -/
theorem ruleConsistent_of_rulesHold (g : List (List Int)) (hg : is9x9 g)
    (h : rulesHold g = true) : ruleConsistent g := by
  intro i₁ j₁ i₂ j₂ x hx hne hunit h₁ h₂
  obtain ⟨hi₁, hj₁⟩ := is9x9_gridCell_lt g hg i₁ j₁ x h₁
  obtain ⟨hi₂, hj₂⟩ := is9x9_gridCell_lt g hg i₂ j₂ x h₂
  unfold rulesHold at h
  simp only [List.all_eq_true, List.mem_range, decide_eq_true_eq] at h
  rcases h i₁ hi₁ j₁ hj₁ i₂ hi₂ j₂ hj₂ hne hunit with h0 | hdiff
  · rw [h₁] at h0
    exact hx (Option.some.inj h0)
  · exact hdiff (h₁.trans h₂.symm)

/-- The grid `playingModeFixed` differs from the source grid
`playingModeBoard` in the cell `(7, 7)` only, and it passes the check. -/
theorem playingModeFixed_rulesHold :
    playingModeFixed = playingModeBoard.set 7 [0, 2, 0, 9, 0, 7, 0, 0, 0] ∧
    gridCell playingModeBoard 7 7 = some 3 ∧
    rulesHold playingModeBoard = false ∧
    rulesHold playingModeFixed = true := by
  decide

/-- C13: on a 9x9 board on which no non-zero value occurs twice in a row, a
column or a 3x3 box, for an in-bounds `(row, col)` and a value that
`isValidMove` accepts, the board written by `setCell(row, col, value)` again
has no non-zero value twice in a row, a column or a 3x3 box. -/
theorem isValidMove_preserves_rules (b : SudokuBoard) (row col value : Int)
    (hb : is9x9 b.currentBoard) (hrules : ruleConsistent b.currentBoard)
    (hr : inBounds row) (hc : inBounds col)
    (hvalid : isValidMove b row col value = true) :
    ruleConsistent (setCell b row col value).2.currentBoard := by
  obtain ⟨i, hi, rfl⟩ := inBounds_natCast row hr
  obtain ⟨j, hj, rfl⟩ := inBounds_natCast col hc
  obtain ⟨hv, _, hrowfree, hcolfree, hboxfree⟩ :=
    (isValidMove_true_iff b i j value hb).mp hvalid
  obtain ⟨r, hrow, hlen⟩ := is9x9_row b.currentBoard hb i hi
  have hjr : j < r.length := by rw [hlen]; exact hj
  rw [setCell_natCast b i j value r hv hrow hjr]
  -- a second cell of a unit of `(i, j)` cannot have held `value` before
  have hclash : ∀ i' j', (i ≠ i' ∨ j ≠ j') → sameUnit i j i' j' →
      gridCell b.currentBoard i' j' ≠ some value := by
    intro i' j' _ hunit
    rcases hunit with h | h | ⟨h1, h2⟩
    · rw [← h]; exact hrowfree j'
    · rw [← h]; exact hcolfree i'
    · exact hboxfree i' j' (by omega) (by omega) (by omega) (by omega)
  intro i₁ j₁ i₂ j₂ x hx hne hunit h₁ h₂
  simp only [gridCell_set b.currentBoard i j r value hrow hjr] at h₁ h₂
  by_cases c₁ : i₁ = i ∧ j₁ = j
  · by_cases c₂ : i₂ = i ∧ j₂ = j
    · omega
    · rw [if_pos c₁] at h₁
      rw [if_neg c₂] at h₂
      obtain ⟨rfl, rfl⟩ := c₁
      have hxv : value = x := Option.some.inj h₁
      rw [← hxv] at h₂
      exact hclash i₂ j₂ hne hunit h₂
  · by_cases c₂ : i₂ = i ∧ j₂ = j
    · rw [if_neg c₁] at h₁
      rw [if_pos c₂] at h₂
      obtain ⟨rfl, rfl⟩ := c₂
      have hxv : value = x := Option.some.inj h₂
      rw [← hxv] at h₁
      have hunit' : sameUnit i₂ j₂ i₁ j₁ := by
        unfold sameUnit at hunit ⊢
        omega
      exact hclash i₁ j₁ (by omega) hunit' h₁
    · rw [if_neg c₁] at h₁
      rw [if_neg c₂] at h₂
      exact hrules i₁ j₁ i₂ j₂ x hx hne hunit h₁ h₂

theorem isValidMove_preserves_rules_witness :
    is9x9 (SudokuBoard.construct playingModeFixed).currentBoard ∧
    ruleConsistent (SudokuBoard.construct playingModeFixed).currentBoard ∧
    inBounds 1 ∧ inBounds 6 ∧
    isValidMove (SudokuBoard.construct playingModeFixed) 1 6 3 = true ∧
    ruleConsistent (setCell (SudokuBoard.construct playingModeFixed) 1 6 3).2.currentBoard ∧
    (isValidMove (SudokuBoard.construct playingModeFixed) 1 6 9 = false ∧
      ¬ ruleConsistent (setCell (SudokuBoard.construct playingModeFixed) 1 6 9).2.currentBoard) ∧
    (isValidMove (SudokuBoard.construct playingModeFixed) 1 6 7 = false ∧
      ¬ ruleConsistent (setCell (SudokuBoard.construct playingModeFixed) 1 6 7).2.currentBoard) ∧
    (isValidMove (SudokuBoard.construct playingModeFixed) 1 6 5 = false ∧
      ¬ ruleConsistent (setCell (SudokuBoard.construct playingModeFixed) 1 6 5).2.currentBoard) :=
  ⟨by decide,
    ruleConsistent_of_rulesHold playingModeFixed (by decide) playingModeFixed_rulesHold.2.2.2,
    by decide, by decide, by decide,
    isValidMove_preserves_rules (SudokuBoard.construct playingModeFixed) 1 6 3
      (by decide)
      (ruleConsistent_of_rulesHold playingModeFixed (by decide) playingModeFixed_rulesHold.2.2.2)
      (by decide) (by decide) (by decide),
    ⟨by decide, fun h => h 1 5 1 6 9 (by decide) (by decide) (by decide) (by decide) (by decide)⟩,
    ⟨by decide, fun h => h 4 6 1 6 7 (by decide) (by decide) (by decide) (by decide) (by decide)⟩,
    ⟨by decide, fun h => h 2 8 1 6 5 (by decide) (by decide) (by decide) (by decide) (by decide)⟩⟩

/-! ## Progress of accepted moves -/

theorem sum_map_set {α : Type} (f : α → Nat) (a x : α) : ∀ (l : List α) (i : Nat),
    l[i]? = some x → ((l.set i a).map f).sum + f x = (l.map f).sum + f a := by
  intro l
  induction l with
  | nil => intro i h; simp at h
  | cons y ys ih =>
    intro i h
    cases i with
    | zero =>
      simp only [List.getElem?_cons_zero, Option.some.injEq] at h
      simp only [List.set_cons_zero, List.map_cons, List.sum_cons, h]
      omega
    | succ n =>
      simp only [List.getElem?_cons_succ] at h
      have := ih n h
      simp only [List.set_cons_succ, List.map_cons, List.sum_cons]
      omega

theorem count_zero_set (row : List Int) (j : Nat) (v : Int)
    (hcell : row[j]? = some 0) (hv : v ≠ 0) :
    (row.set j v).count 0 + 1 = row.count 0 := by
  obtain ⟨hj, hval⟩ := List.getElem?_eq_some.mp hcell
  have hpos : 0 < row.count 0 := List.count_pos_iff.mpr (List.getElem?_mem hcell)
  rw [List.count_set v 0 row j hj, hval]
  simp only [beq_self_eq_true, if_true, beq_iff_eq, hv, if_false]
  omega

/-- Filling one empty cell with a non-zero value lowers the number of empty
cells by one. -/
theorem emptyCount_set (g : List (List Int)) (i j : Nat) (row : List Int) (v : Int)
    (hrow : g[i]? = some row) (hcell : row[j]? = some 0) (hv : v ≠ 0) :
    emptyCount (g.set i (row.set j v)) + 1 = emptyCount g := by
  have h1 := sum_map_set (fun r : List Int => r.count 0) (row.set j v) row g i hrow
  have h2 := count_zero_set row j v hcell hv
  unfold emptyCount
  simp only at h1
  omega

theorem getCell_zero_cell (b : SudokuBoard) (r c : Int) (h : getCell b r c = 0) :
    ∃ i j : Nat, r = (i : Int) ∧ c = (j : Int) ∧ gridCell b.currentBoard i j = some 0 := by
  by_cases hneg : r < 0 ∨ c < 0
  · rw [getCell_neg b r c hneg] at h
    exact absurd h (by decide)
  · refine ⟨r.toNat, c.toNat, by omega, by omega, ?_⟩
    have hr : r = (r.toNat : Int) := by omega
    have hc : c = (c.toNat : Int) := by omega
    rw [hr, hc] at h
    exact (getCell_eq_iff b r.toNat c.toNat 0 (by decide)).mp h

/-- One accepted move: the grid keeps its shape and has one empty cell
less. -/
theorem accepted_move_step (b : SudokuBoard) (row col value : Int)
    (h : isValidMove b row col value = true) :
    emptyCount (setCell b row col value).2.currentBoard + 1 = emptyCount b.currentBoard ∧
    (is9x9 b.currentBoard → is9x9 (setCell b row col value).2.currentBoard) := by
  obtain ⟨hv, h0⟩ := isValidMove_true_guards b row col value h
  obtain ⟨i, j, rfl, rfl, hcell⟩ := getCell_zero_cell b row col h0
  unfold gridCell at hcell
  cases hrow : b.currentBoard[i]? with
  | none => rw [hrow] at hcell; exact Option.noConfusion hcell
  | some r =>
    simp only [hrow] at hcell
    obtain ⟨hjr, _⟩ := List.getElem?_eq_some.mp hcell
    rw [setCell_natCast b i j value r hv hrow hjr]
    refine ⟨emptyCount_set b.currentBoard i j r value hrow hcell (by omega), ?_⟩
    rintro ⟨hlen, hrows⟩
    refine ⟨by simp only [List.length_set]; exact hlen, ?_⟩
    intro r' hr'
    rcases List.mem_or_eq_of_mem_set hr' with hm | hm
    · exact hrows r' hm
    · rw [hm, List.length_set]; exact hrows r (List.getElem?_mem hrow)

theorem accepted_run (moves : List SetCellCall) : ∀ b : SudokuBoard,
    allAccepted b moves = true →
    emptyCount (runSetCells b moves).currentBoard + moves.length = emptyCount b.currentBoard ∧
    (is9x9 b.currentBoard → is9x9 (runSetCells b moves).currentBoard) := by
  induction moves with
  | nil => intro b _; exact ⟨rfl, fun h => h⟩
  | cons m rest ih =>
    intro b hacc
    simp only [allAccepted, Bool.and_eq_true] at hacc
    obtain ⟨hstep, hshape⟩ := accepted_move_step b m.row m.col m.value hacc.1
    obtain ⟨hrun, hshape2⟩ := ih (setCell b m.row m.col m.value).2 hacc.2
    simp only [runSetCells, List.length_cons]
    exact ⟨by omega, fun h => hshape2 (hshape h)⟩

theorem sum_map_le {α : Type} (f : α → Nat) (c : Nat) : ∀ l : List α,
    (∀ a ∈ l, f a ≤ c) → (l.map f).sum ≤ l.length * c := by
  intro l
  induction l with
  | nil => intro _; simp
  | cons y ys ih =>
    intro h
    have h1 := h y (List.mem_cons_self _ _)
    have h2 := ih (fun a ha => h a (List.mem_cons_of_mem _ ha))
    simp only [List.map_cons, List.sum_cons, List.length_cons, Nat.add_mul, Nat.one_mul]
    omega

theorem emptyCount_le (g : List (List Int)) (hg : is9x9 g) : emptyCount g ≤ 81 := by
  have h := sum_map_le (fun r : List Int => r.count 0) 9 g
    (fun r hr => by
      have := List.count_le_length (0 : Int) r
      rw [hg.2 r hr] at this
      exact this)
  rw [hg.1] at h
  exact h

theorem emptyCount_eq_zero_iff (g : List (List Int)) :
    emptyCount g = 0 ↔ ∀ r ∈ g, ∀ x ∈ r, x ≠ 0 := by
  unfold emptyCount
  induction g with
  | nil => simp
  | cons y ys ih =>
    simp only [List.map_cons, List.sum_cons, Nat.add_eq_zero_iff, ih, List.count_eq_zero,
      List.mem_cons, forall_eq_or_imp]
    constructor
    · rintro ⟨h1, h2⟩
      exact ⟨fun x hx e => h1 (e ▸ hx), h2⟩
    · rintro ⟨h1, h2⟩
      exact ⟨fun hx => h1 0 hx rfl, h2⟩

/-- C18: on a 9x9 board every move that `isValidMove` accepts lowers the
number of empty cells by exactly one when written with `setCell`; after a
sequence of accepted moves the number of empty cells has dropped by the
length of the sequence, `isSolved()` is `true` exactly when that length is
the number of cells that were empty at the start, and the sequence has at
most 81 moves. -/
theorem accepted_moves_progress (b : SudokuBoard) (moves : List SetCellCall)
    (hb : is9x9 b.currentBoard) (hacc : allAccepted b moves = true) :
    (∀ row col value : Int, isValidMove b row col value = true →
      emptyCount (setCell b row col value).2.currentBoard + 1 = emptyCount b.currentBoard) ∧
    emptyCount (runSetCells b moves).currentBoard + moves.length
      = emptyCount b.currentBoard ∧
    (isSolved (runSetCells b moves) = true ↔ moves.length = emptyCount b.currentBoard) ∧
    moves.length ≤ 81 := by
  obtain ⟨hrun, hshape⟩ := accepted_run moves b hacc
  have hle := emptyCount_le b.currentBoard hb
  refine ⟨fun row col value h => (accepted_move_step b row col value h).1, hrun, ?_,
    by omega⟩
  rw [isSolved_iff_no_zero (runSetCells b moves) (hshape hb), ← emptyCount_eq_zero_iff]
  omega

theorem accepted_moves_progress_witness :
    is9x9 (SudokuBoard.construct testFivePiecesMissing).currentBoard ∧
    allAccepted (SudokuBoard.construct testFivePiecesMissing)
      [⟨1, 0, 5⟩, ⟨3, 1, 5⟩, ⟨8, 5, 5⟩] = true ∧
    emptyCount (runSetCells (SudokuBoard.construct testFivePiecesMissing)
      [⟨1, 0, 5⟩, ⟨3, 1, 5⟩, ⟨8, 5, 5⟩]).currentBoard + 3
      = emptyCount (SudokuBoard.construct testFivePiecesMissing).currentBoard :=
  ⟨by decide, by decide,
    (accepted_moves_progress (SudokuBoard.construct testFivePiecesMissing)
      [⟨1, 0, 5⟩, ⟨3, 1, 5⟩, ⟨8, 5, 5⟩] (by decide) (by decide)).2.1⟩

end Sudoku
